import Mathlib

/-!
# Verification of the secure-digital-locker core services

Shallow embedding of the repository's core services:

* `src/src/services/encryptionService.js` — envelope encryption (AES-256-GCM
  with a KMS-wrapped data-encryption key);
* `src/src/services/documentService.js` — document lifecycle and the
  role/ownership access-control predicates;
* `src/unnamed/part_004` (firebaseService.js) — `hasRole` and the base
  `canAccessDocument` predicate;
* `src/src/services/auditService.js` — the audit ledger (`logEvent`,
  the typed wrappers, and `cleanupOldLogs`);
* `src/src/routes/admin.js` — the retention-floor check of the
  `POST /cleanup-logs` route.

Byte buffers are modelled as `List Nat` (base64 transport is a library
bijection between buffers and strings, so envelope fields hold the byte
sequences directly).  JavaScript `undefined`/`null` object fields are
modelled with `Option`.  External effects (Firestore, Cloud Storage, the
KMS, `uuidv4`, clock reads) are modelled by explicit state threading and
by function parameters supplying the external behaviour.
-/

namespace SecureLocker

/-! ## Envelope cipher primitive

AES-256-GCM is library code (Node `crypto`), not part of this repository,
so it is modelled abstractly by its structure: a CTR keystream that is
XOR-ed with the data, and an authentication tag computed over the
ciphertext from the key and the nonce.  `ks dek iv i` is the keystream
byte at position `i`; `tagOf dek iv ct` is the authentication tag of
ciphertext `ct`.  Theorems assume only the properties of this structure
that the real cipher has (XOR involutivity is unconditional; tag collision
freedom appears as an explicit hypothesis where needed). -/
structure GcmPrim where
  ks : List Nat → List Nat → Nat → Nat
  tagOf : List Nat → List Nat → List Nat → Nat

/-- CTR-mode core: XOR the byte stream with the keystream starting at
position `i`.  Applying it twice with the same key/nonce restores the
input (XOR involutivity), which is exactly how GCM decrypts. -/
def ctrXor (P : GcmPrim) (dek iv : List Nat) : Nat → List Nat → List Nat
  | _, [] => []
  | i, b :: rest => (b ^^^ P.ks dek iv i) :: ctrXor P dek iv (i + 1) rest

/-- The external key authority (Cloud KMS in the source): `encrypt` wraps a
DEK under the master key named by `keyId`, `decrypt` unwraps; `decrypt`
returning `none` models the KMS call throwing. -/
structure Kms where
  encrypt : String → List Nat → List Nat
  decrypt : String → List Nat → Option (List Nat)

/-- The envelope returned by `encryptData` (field for field the object
built at `encryptionService.js:37-44`; byte fields hold the bytes that the
source carries base64-encoded). -/
structure EncryptedPayload where
  encryptedData : List Nat
  encryptedDEK : List Nat
  iv : List Nat
  authTag : Nat
  algorithm : String
  kmsKeyId : String
deriving Repr, DecidableEq

/-- `EncryptionService.encryptData` (`encryptionService.js:16-49`): encrypt
the data with a fresh DEK and IV under AES-256-GCM, wrap the DEK through
the KMS, and package everything into the envelope.  The fresh random
`dek`/`iv` produced by `crypto.randomBytes` are passed in as parameters
(randomness is an external input). -/
def encryptData (P : GcmPrim) (K : Kms) (keyId : String) (dek iv data : List Nat) :
    EncryptedPayload :=
  let encryptedData := ctrXor P dek iv 0 data
  let authTag := P.tagOf dek iv encryptedData
  { encryptedData := encryptedData
    encryptedDEK := K.encrypt keyId dek
    iv := iv
    authTag := authTag
    algorithm := "aes-256-gcm"
    kmsKeyId := keyId }

/-- The distinct failure points inside `decryptData` before its `catch`
collapses them: the KMS unwrap of the DEK throwing, `createDecipherGCM`
rejecting the algorithm identifier, and `decipher.final()` throwing on an
authentication-tag mismatch. -/
inductive DecryptFailurePoint where
  | kmsFailure
  | badAlgorithm
  | authFailure
deriving Repr, DecidableEq

/-- The body of `EncryptionService.decryptData` (`encryptionService.js:58-78`),
before the surrounding `catch`: unwrap the DEK via the KMS, build the GCM
decipher for the payload's algorithm, set the auth tag, and decrypt; GCM
releases the plaintext only when the recomputed tag equals the supplied
one. -/
def decryptDataInner (P : GcmPrim) (K : Kms) (keyId : String)
    (payload : EncryptedPayload) : Except DecryptFailurePoint (List Nat) :=
  match K.decrypt keyId payload.encryptedDEK with
  | none => .error .kmsFailure
  | some dek =>
    if payload.algorithm ≠ "aes-256-gcm" then .error .badAlgorithm
    else if payload.authTag = P.tagOf dek payload.iv payload.encryptedData then
      .ok (ctrXor P dek payload.iv 0 payload.encryptedData)
    else .error .authFailure

/-- `EncryptionService.decryptData` (`encryptionService.js:56-83`): the
`catch` block rethrows every internal failure as the single generic
`Error('Decryption failed')`. -/
def decryptData (P : GcmPrim) (K : Kms) (keyId : String)
    (payload : EncryptedPayload) : Except String (List Nat) :=
  match decryptDataInner P K keyId payload with
  | .ok data => .ok data
  | .error _ => .error "Decryption failed"

theorem ctrXor_ctrXor (P : GcmPrim) (dek iv : List Nat) (i : Nat) (l : List Nat) :
    ctrXor P dek iv i (ctrXor P dek iv i l) = l := by
  induction l generalizing i with
  | nil => rfl
  | cons b rest ih => simp [ctrXor, ih, Nat.xor_cancel_right]

/-- C1: decrypting the envelope produced by encrypting a plaintext returns
exactly that plaintext, under the hypothesis that the KMS unwrap is the
inverse of its wrap on the chosen DEK. -/
theorem decryptData_encryptData (P : GcmPrim) (K : Kms) (keyId : String)
    (dek iv data : List Nat)
    (hkms : K.decrypt keyId (K.encrypt keyId dek) = some dek) :
    decryptData P K keyId (encryptData P K keyId dek iv data) = .ok data := by
  simp [decryptData, decryptDataInner, encryptData, hkms, ctrXor_ctrXor]

/-- A concrete instantiation of the cipher primitive, used to evaluate the
theorems on concrete inputs. -/
def demoPrim : GcmPrim :=
  { ks := fun dek iv i => (dek.headD 0 + iv.headD 0 + 3 * i) % 256
    tagOf := fun dek iv ct =>
      ct.foldl (fun a b => (a * 131 + b) % 65536) (dek.headD 0 + 7 * iv.headD 0) }

/-- A concrete key authority whose unwrap inverts its wrap. -/
def demoKms : Kms :=
  { encrypt := fun _ dek => dek.map (fun b => b + 1)
    decrypt := fun _ w => some (w.map (fun b => b - 1)) }

/-- A key authority whose unwrap always throws (KMS unreachable). -/
def failingKms : Kms :=
  { encrypt := fun _ dek => dek
    decrypt := fun _ _ => none }

/-- Witness for C1 at a concrete plaintext, DEK and IV. -/
theorem decryptData_encryptData_witness :
    demoKms.decrypt "key-1" (demoKms.encrypt "key-1" [9, 4]) = some [9, 4] ∧
    decryptData demoPrim demoKms "key-1"
      (encryptData demoPrim demoKms "key-1" [9, 4] [5] [10, 20, 30]) = .ok [10, 20, 30] :=
  ⟨by decide, decryptData_encryptData demoPrim demoKms "key-1" [9, 4] [5] [10, 20, 30] (by decide)⟩

/-- C2 counterexample: the claim requires a failure distinguishable as a
tag/integrity mismatch, but the `catch` in `decryptData` rethrows every
internal failure as the same generic `Error('Decryption failed')`: here a
tampered auth tag and an unreachable KMS (with an untampered envelope)
surface the identical error value, so a tag mismatch is not
distinguishable by the caller. -/
theorem tamper_error_indistinguishable :
    (decryptData demoPrim demoKms "key-1"
      (let env := encryptData demoPrim demoKms "key-1" [9, 4] [5] [10, 20, 30]
       { env with authTag := env.authTag + 1 }) = .error "Decryption failed") ∧
    (decryptData demoPrim failingKms "key-1"
      (encryptData demoPrim failingKms "key-1" [9, 4] [5] [10, 20, 30]) =
        .error "Decryption failed") := by
  constructor
  · rfl
  · rfl

/-- C2 amended: modifying the ciphertext or the authentication tag of an
envelope makes `decryptData` fail — with the generic
`Error('Decryption failed')`, not a distinguishable integrity error — and
it returns no plaintext.  A modified tag (unchanged ciphertext) fails
unconditionally; a modified ciphertext (unchanged tag) fails whenever the
tag function does not collide on the two ciphertexts, which is the
defining guarantee of the GCM tag. -/
theorem decryptData_tampered (P : GcmPrim) (K : Kms) (keyId : String)
    (dek iv data : List Nat) (ct' : List Nat) (tag' : Nat)
    (hkms : K.decrypt keyId (K.encrypt keyId dek) = some dek)
    (htamper :
      (ct' = (encryptData P K keyId dek iv data).encryptedData ∧
        tag' ≠ (encryptData P K keyId dek iv data).authTag) ∨
      (tag' = (encryptData P K keyId dek iv data).authTag ∧
        P.tagOf dek iv ct' ≠ P.tagOf dek iv (encryptData P K keyId dek iv data).encryptedData)) :
    decryptData P K keyId
      { encryptData P K keyId dek iv data with encryptedData := ct', authTag := tag' } =
        .error "Decryption failed" := by
  rcases htamper with ⟨hct, htag⟩ | ⟨htag, hct⟩
  · subst hct
    simp only [decryptData, decryptDataInner, encryptData, hkms]
    rw [if_neg (by simp)]
    rw [if_neg (by simpa [encryptData] using htag)]
  · subst htag
    simp only [decryptData, decryptDataInner, encryptData, hkms]
    rw [if_neg (by simp)]
    rw [if_neg (by simpa [encryptData] using hct.symm)]

/-- Witness for the amended C2: flipping the auth tag of a concrete
envelope makes decryption fail with the generic error. -/
theorem decryptData_tampered_witness :
    decryptData demoPrim demoKms "key-1"
      { encryptData demoPrim demoKms "key-1" [9, 4] [5] [10, 20, 30] with
          encryptedData := (encryptData demoPrim demoKms "key-1" [9, 4] [5] [10, 20, 30]).encryptedData,
          authTag := (encryptData demoPrim demoKms "key-1" [9, 4] [5] [10, 20, 30]).authTag + 1 } =
      .error "Decryption failed" :=
  decryptData_tampered demoPrim demoKms "key-1" [9, 4] [5] [10, 20, 30]
    (encryptData demoPrim demoKms "key-1" [9, 4] [5] [10, 20, 30]).encryptedData
    ((encryptData demoPrim demoKms "key-1" [9, 4] [5] [10, 20, 30]).authTag + 1)
    (by decide) (Or.inl ⟨rfl, by decide⟩)

/-! ## Access control

Role strings from `config.roles` (part_003): `admin`, `hr`, `employee`.
A `UserInfo` is the authenticated principal object attached to requests
(`uid`, custom-claim `role`, custom-claim `employeeId`); a missing claim
is `none`.  A `DocumentMetadata` is the Firestore document row, with the
fields the access predicates and the lifecycle operations read. -/

namespace Config

def ADMIN : String := "admin"

def HR : String := "hr"

def EMPLOYEE : String := "employee"

end Config

structure UserInfo where
  uid : String
  email : String
  role : Option String
  employeeId : Option String
deriving Repr, DecidableEq

structure DocumentMetadata where
  originalName : String
  fileName : String
  mimeType : String
  size : Nat
  documentType : String
  employeeId : Option String
  ownerId : Option String
  sharedWith : List String
  isActive : Bool
  accessCount : Nat
  lastAccessed : Option Nat
  uploadedAt : Nat
  version : Nat
  deletedAt : Option Nat
  deletedBy : Option String
deriving Repr, DecidableEq

/-- `FirebaseService.hasRole` (part_004:235-240): `false` when the user
object or its `role` field is absent/falsy, otherwise membership of the
role in the required-role list.  (The JavaScript accepts a single role or
an array; callers in this repository always pass arrays.) -/
def hasRole (user : Option UserInfo) (requiredRoles : List String) : Bool :=
  match user with
  | none => false
  | some u =>
    match u.role with
    | none => false
    | some r => if r = "" then false else requiredRoles.contains r

/-- `FirebaseService.canAccessDocument` (part_004:248-263): `false` on an
absent user or document; admin and hr may access everything; an employee
may access a document whose `employeeId` matches their own or which they
own; any other role is denied.  Note that the employee branch compares the
two `employeeId` fields with strict equality, so two absent fields compare
equal, as `undefined === undefined` does in the source. -/
def FirebaseService.canAccessDocument (user : Option UserInfo)
    (document : Option DocumentMetadata) : Bool :=
  match user, document with
  | some u, some d =>
    if u.role = some Config.ADMIN then true
    else if u.role = some Config.HR then true
    else if u.role = some Config.EMPLOYEE then
      d.employeeId == u.employeeId || d.ownerId == some u.uid
    else false
  | _, _ => false

/-- The metadata object accompanying an upload request
(`documentService.js` / part_005 `storageService.uploadDocument`). -/
structure UploadMetadata where
  originalName : String
  mimeType : String
  documentType : String
  employeeId : Option String
  tags : List String
  description : String
deriving Repr, DecidableEq

/-- `DocumentService.canUploadDocument` (`documentService.js:553-557`):
only hr and admin can upload; the metadata argument is not consulted. -/
def DocumentService.canUploadDocument (userInfo : UserInfo)
    (_metadata : UploadMetadata) : Bool :=
  hasRole (some userInfo) [Config.HR, Config.ADMIN]

/-- `DocumentService.canAccessDocument` (`documentService.js:565-568`):
the firebase predicate, or membership of the user's uid in the document's
`sharedWith` list. -/
def DocumentService.canAccessDocument (userInfo : UserInfo)
    (documentMetadata : DocumentMetadata) : Bool :=
  FirebaseService.canAccessDocument (some userInfo) (some documentMetadata) ||
    documentMetadata.sharedWith.contains userInfo.uid

/-- `DocumentService.canDeleteDocument` (`documentService.js:576-579`):
only admin and hr can delete; ownership is not consulted. -/
def DocumentService.canDeleteDocument (userInfo : UserInfo)
    (_documentMetadata : DocumentMetadata) : Bool :=
  hasRole (some userInfo) [Config.ADMIN, Config.HR]

/-- `DocumentService.canShareDocument` (`documentService.js:587-590`):
the owner, or an admin/hr principal. -/
def DocumentService.canShareDocument (userInfo : UserInfo)
    (documentMetadata : DocumentMetadata) : Bool :=
  documentMetadata.ownerId == some userInfo.uid ||
    hasRole (some userInfo) [Config.ADMIN, Config.HR]

/-- An employee principal who is not the document's subject, not its owner
and not in its sharing list is denied by `canAccessDocument`. -/
theorem canAccessDocument_foreign_employee (e : UserInfo) (d : DocumentMetadata)
    (hrole : e.role = some Config.EMPLOYEE)
    (hemp : d.employeeId ≠ e.employeeId)
    (howner : d.ownerId ≠ some e.uid)
    (hshared : e.uid ∉ d.sharedWith) :
    DocumentService.canAccessDocument e d = false := by
  simp only [DocumentService.canAccessDocument, FirebaseService.canAccessDocument,
    hrole, Config.ADMIN, Config.HR, Config.EMPLOYEE, Bool.or_eq_false_iff]
  refine ⟨?_, ?_⟩
  · simp [hemp, howner]
  · simpa using hshared

/-- C3: an admin principal is allowed every action (upload, read/access,
delete, share), and an employee principal whose `employeeId` differs from
the document's, who is not the owner and is not in the sharing list, is
denied read access. -/
theorem admin_allows_all_and_foreign_employee_denied :
    (∀ (u : UserInfo) (d : DocumentMetadata) (m : UploadMetadata),
      u.role = some Config.ADMIN →
        DocumentService.canUploadDocument u m = true ∧
        DocumentService.canAccessDocument u d = true ∧
        DocumentService.canDeleteDocument u d = true ∧
        DocumentService.canShareDocument u d = true) ∧
    (∀ (e : UserInfo) (d : DocumentMetadata),
      e.role = some Config.EMPLOYEE →
      d.employeeId ≠ e.employeeId →
      d.ownerId ≠ some e.uid →
      e.uid ∉ d.sharedWith →
        DocumentService.canAccessDocument e d = false) := by
  constructor
  · intro u d m hrole
    refine ⟨?_, ?_, ?_, ?_⟩ <;>
      simp [DocumentService.canUploadDocument, DocumentService.canAccessDocument,
        DocumentService.canDeleteDocument, DocumentService.canShareDocument,
        FirebaseService.canAccessDocument, hasRole, hrole, Config.ADMIN, Config.HR,
        Config.EMPLOYEE]
  · exact fun e d hrole hemp howner hshared =>
      canAccessDocument_foreign_employee e d hrole hemp howner hshared

/-- Demo principals and document for concrete evaluation of the
access-control theorems. -/
def adminUser : UserInfo :=
  { uid := "u-admin", email := "a@x", role := some Config.ADMIN, employeeId := none }

def hrUser : UserInfo :=
  { uid := "u-hr", email := "h@x", role := some Config.HR, employeeId := none }

def employeeOwner : UserInfo :=
  { uid := "u-own", email := "o@x", role := some Config.EMPLOYEE, employeeId := some "E1" }

def employeeE2 : UserInfo :=
  { uid := "u-e2", email := "e2@x", role := some Config.EMPLOYEE, employeeId := some "E2" }

def employeeShared : UserInfo :=
  { uid := "u-sh", email := "s@x", role := some Config.EMPLOYEE, employeeId := some "E3" }

def demoDoc : DocumentMetadata :=
  { originalName := "slip.pdf"
    fileName := "f-1.pdf"
    mimeType := "application/pdf"
    size := 10
    documentType := "salary_slip"
    employeeId := some "E1"
    ownerId := some "u-own"
    sharedWith := ["u-sh"]
    isActive := true
    accessCount := 0
    lastAccessed := none
    uploadedAt := 100
    version := 1
    deletedAt := none
    deletedBy := none }

/-- Witness for C3: the admin is allowed access to the demo document and
the foreign employee `u-e2` is denied. -/
theorem admin_allows_all_witness :
    DocumentService.canAccessDocument adminUser demoDoc = true ∧
    DocumentService.canAccessDocument employeeE2 demoDoc = false :=
  ⟨(admin_allows_all_and_foreign_employee_denied.1 adminUser demoDoc
      ⟨"a", "b", "c", none, [], ""⟩ rfl).2.1,
    admin_allows_all_and_foreign_employee_denied.2 employeeE2 demoDoc rfl
      (by decide) (by decide) (by decide)⟩

/-- C4 counterexample: the claim says the owner of a resource is allowed
the delete action, but `canDeleteDocument` consults only the role:
`employeeOwner` owns `demoDoc` yet is denied deletion. -/
theorem owner_delete_denied :
    demoDoc.ownerId = some employeeOwner.uid ∧
    DocumentService.canDeleteDocument employeeOwner demoDoc = false := by
  constructor
  · rfl
  · decide

/-- C4 amended: the owner is allowed read and share; delete is granted by
role alone, so an employee-role owner is denied delete; a non-owner whose
uid is in the sharing list is allowed read, and when of employee role (and
not the subject of the document) is denied delete and share. -/
theorem owner_and_shared_grants (u : UserInfo) (d : DocumentMetadata)
    (howner : d.ownerId = some u.uid)
    (hrole : u.role = some Config.ADMIN ∨ u.role = some Config.HR ∨
      u.role = some Config.EMPLOYEE) :
    (DocumentService.canAccessDocument u d = true ∧
     DocumentService.canShareDocument u d = true ∧
     (u.role = some Config.EMPLOYEE → DocumentService.canDeleteDocument u d = false)) ∧
    (∀ (v : UserInfo), v.uid ∈ d.sharedWith →
      DocumentService.canAccessDocument v d = true ∧
      (v.role = some Config.EMPLOYEE → d.ownerId ≠ some v.uid →
        DocumentService.canDeleteDocument v d = false ∧
        DocumentService.canShareDocument v d = false)) := by
  refine ⟨⟨?_, ?_, ?_⟩, ?_⟩
  · rcases hrole with h | h | h <;>
      simp [DocumentService.canAccessDocument, FirebaseService.canAccessDocument,
        h, howner, Config.ADMIN, Config.HR, Config.EMPLOYEE]
  · simp [DocumentService.canShareDocument, howner]
  · intro h
    simp [DocumentService.canDeleteDocument, hasRole, h, Config.ADMIN, Config.HR,
      Config.EMPLOYEE]
  · intro v hv
    refine ⟨?_, ?_⟩
    · simp only [DocumentService.canAccessDocument, Bool.or_eq_true]
      right
      simpa using hv
    · intro hvrole hvown
      constructor
      · simp [DocumentService.canDeleteDocument, hasRole, hvrole, Config.ADMIN,
          Config.HR, Config.EMPLOYEE]
      · simp only [DocumentService.canShareDocument, hasRole, hvrole,
          Bool.or_eq_false_iff]
        refine ⟨by simpa using hvown, by simp [Config.ADMIN, Config.HR, Config.EMPLOYEE]⟩

/-- Witness for the amended C4 on the demo data: the employee owner reads
and shares but cannot delete; the shared employee reads but can neither
delete nor share. -/
theorem owner_and_shared_grants_witness :
    (DocumentService.canAccessDocument employeeOwner demoDoc = true ∧
     DocumentService.canShareDocument employeeOwner demoDoc = true ∧
     DocumentService.canDeleteDocument employeeOwner demoDoc = false) ∧
    (DocumentService.canAccessDocument employeeShared demoDoc = true ∧
     DocumentService.canDeleteDocument employeeShared demoDoc = false ∧
     DocumentService.canShareDocument employeeShared demoDoc = false) := by
  have h := owner_and_shared_grants employeeOwner demoDoc rfl (Or.inr (Or.inr rfl))
  have hsh := h.2 employeeShared (by decide)
  exact ⟨⟨h.1.1, h.1.2.1, h.1.2.2 rfl⟩,
    ⟨hsh.1, (hsh.2 rfl (by decide)).1, (hsh.2 rfl (by decide)).2⟩⟩

/-- C10: the access predicates are total and deny by default: an absent
user, an absent or non-closed-enum role, or an absent document each yield
`false` rather than an error or an allow. -/
theorem access_checks_deny_by_default :
    (∀ roles, hasRole none roles = false) ∧
    (∀ (u : UserInfo) roles, u.role = none → hasRole (some u) roles = false) ∧
    (∀ (u : UserInfo) (r : String) (roles : List String),
      u.role = some r → r ∉ [Config.ADMIN, Config.HR, Config.EMPLOYEE] →
      (∀ x ∈ roles, x ∈ [Config.ADMIN, Config.HR, Config.EMPLOYEE]) →
      hasRole (some u) roles = false) ∧
    (∀ d, FirebaseService.canAccessDocument none d = false) ∧
    (∀ u, FirebaseService.canAccessDocument u none = false) ∧
    (∀ (u : UserInfo) (d : DocumentMetadata) (r : String),
      u.role = some r → r ∉ [Config.ADMIN, Config.HR, Config.EMPLOYEE] →
      FirebaseService.canAccessDocument (some u) (some d) = false) := by
  refine ⟨fun roles => rfl, ?_, ?_, ?_, ?_, ?_⟩
  · intro u roles h
    simp [hasRole, h]
  · intro u r roles h hnot hsub
    simp only [hasRole, h]
    rcases eq_or_ne r "" with he | he
    · simp [he]
    · rw [if_neg he]
      by_contra hc
      simp only [Bool.not_eq_false] at hc
      have : r ∈ roles := by simpa using hc
      exact hnot (hsub r this)
  · intro d
    cases d <;> rfl
  · intro u
    cases u <;> rfl
  · intro u d r h hnot
    simp only [List.mem_cons, List.not_mem_nil, or_false, not_or] at hnot
    simp only [FirebaseService.canAccessDocument, h]
    rw [if_neg (by simpa using hnot.1), if_neg (by simpa using hnot.2.1),
      if_neg (by simpa using hnot.2.2)]

/-- Witness for C10: a user with the unknown role `guest` and an absent
user are both denied. -/
theorem access_checks_deny_by_default_witness :
    hasRole none [Config.ADMIN] = false ∧
    FirebaseService.canAccessDocument
      (some { uid := "u9", email := "g@x", role := some "guest", employeeId := none })
      (some demoDoc) = false :=
  ⟨access_checks_deny_by_default.1 [Config.ADMIN],
    access_checks_deny_by_default.2.2.2.2.2
      { uid := "u9", email := "g@x", role := some "guest", employeeId := none }
      demoDoc "guest" rfl (by decide)⟩

/-! ## Audit ledger

`auditService.js`.  An `AuditEvent` flattens the nested wire object built
by `logEvent` (`auditService.js:31-64`) to the fields the claims consult:
identity, event type, timestamp, the `user` block, the `resource` block,
the `action` block (`success`, `errorMessage`), and the `metadata` keys
written by the typed wrappers (`attemptedAction`, `reason`,
`requiredRole`, `accessMethod`).  The Firestore write is modelled by
`auditCollectionSet`, whose availability is an external input
(`storageOk`); `uuidv4` and the server timestamp are parameters. -/

structure AuditEvent where
  id : String
  eventType : String
  timestamp : Nat
  userId : String
  userEmail : String
  userRole : Option String
  employeeId : Option String
  resourceType : Option String
  resourceId : Option String
  resourceName : Option String
  resourceEmployeeId : Option String
  success : Bool
  errorMessage : Option String
  attemptedAction : Option String
  reason : Option String
  requiredRole : List String
  accessMethod : Option String
deriving Repr, DecidableEq

/-- The `eventData` argument of `logEvent`: the union of the fields the
call sites supply.  An omitted field (JavaScript `undefined`) is the
default. -/
structure EventData where
  eventType : String
  userId : String := ""
  userEmail : String := ""
  userRole : Option String := none
  employeeId : Option String := none
  resourceType : Option String := none
  resourceId : Option String := none
  resourceName : Option String := none
  resourceEmployeeId : Option String := none
  success : Option Bool := none
  errorMessage : Option String := none
  attemptedAction : Option String := none
  reason : Option String := none
  requiredRole : List String := []
  accessMethod : Option String := none
deriving Repr, DecidableEq

/-- The audit-log object assembled by `logEvent` (`auditService.js:31-64`).
`action.success` defaults to `true` unless `success` was literally `false`
(`eventData.success !== false`). -/
def mkAuditLog (newId : String) (now : Nat) (d : EventData) : AuditEvent :=
  { id := newId
    eventType := d.eventType
    timestamp := now
    userId := d.userId
    userEmail := d.userEmail
    userRole := d.userRole
    employeeId := d.employeeId
    resourceType := d.resourceType
    resourceId := d.resourceId
    resourceName := d.resourceName
    resourceEmployeeId := d.resourceEmployeeId
    success := d.success != some false
    errorMessage := d.errorMessage
    attemptedAction := d.attemptedAction
    reason := d.reason
    requiredRole := d.requiredRole
    accessMethod := d.accessMethod }

/-- The Firestore `set` on the audit collection: appends when the store is
available, throws otherwise. -/
def auditCollectionSet (storageOk : Bool) (e : AuditEvent) (log : List AuditEvent) :
    Except String (List AuditEvent) :=
  if storageOk then .ok (log ++ [e]) else .error "firestore unavailable"

/-- Outcome of `logEvent`: the returned value (the new audit-log id, or
the `null` sentinel), the resulting stored log, and whether the local
fallback emission (the `console.error` in the `catch`) happened. -/
structure LogResult where
  result : Option String
  log : List AuditEvent
  fallbackEmitted : Bool
deriving Repr, DecidableEq

/-- `AuditService.logEvent` (`auditService.js:26-84`): build the audit-log
object, write it; on success return the new id; on any internal storage
failure catch, emit the local fallback, and return `null` without
re-raising (the comment in the source: do not throw, to avoid breaking the
main operation). -/
def logEvent (storageOk : Bool) (newId : String) (now : Nat) (d : EventData)
    (log : List AuditEvent) : LogResult :=
  match auditCollectionSet storageOk (mkAuditLog newId now d) log with
  | .ok log2 => { result := some newId, log := log2, fallbackEmitted := false }
  | .error _ => { result := none, log := log, fallbackEmitted := true }

/-- C7: `logEvent` is total over every behaviour of the underlying audit
storage and never propagates a failure: when the store is available it
returns the new event id with the event appended, and on storage failure
it returns the `null` sentinel after the local fallback emission, leaving
the stored log unchanged. -/
theorem logEvent_never_fails_caller (storageOk : Bool) (newId : String) (now : Nat)
    (d : EventData) (log : List AuditEvent) :
    logEvent storageOk newId now d log =
      if storageOk then
        { result := some newId, log := log ++ [mkAuditLog newId now d],
          fallbackEmitted := false }
      else { result := none, log := log, fallbackEmitted := true } := by
  cases storageOk <;> rfl

/-- `AuditService.logAccessDenied` (`auditService.js:208-226`): the
`access_denied` wrapper fixes the event type, forces `success := false`,
carries `attemptedAction`/`reason`/`requiredRole` in the metadata, and
defaults the error message. -/
def logAccessDenied (storageOk : Bool) (newId : String) (now : Nat) (d : EventData)
    (log : List AuditEvent) : LogResult :=
  logEvent storageOk newId now
    { d with
        eventType := "access_denied"
        success := some false
        errorMessage :=
          some (d.errorMessage.getD "Access denied due to insufficient permissions") }
    log

/-- `AuditService.logDocumentUpload` (`auditService.js:91-117`). -/
def logDocumentUpload (storageOk : Bool) (newId : String) (now : Nat) (d : EventData)
    (log : List AuditEvent) : LogResult :=
  logEvent storageOk newId now { d with eventType := "document_upload" } log

/-- `AuditService.logDocumentDownload` (`auditService.js:124-146`). -/
def logDocumentDownload (storageOk : Bool) (newId : String) (now : Nat) (d : EventData)
    (log : List AuditEvent) : LogResult :=
  logEvent storageOk newId now
    { d with
        eventType := "document_download"
        accessMethod := some (d.accessMethod.getD "direct") }
    log

/-- `AuditService.logDocumentDelete` (`auditService.js:153-176`). -/
def logDocumentDelete (storageOk : Bool) (newId : String) (now : Nat) (d : EventData)
    (log : List AuditEvent) : LogResult :=
  logEvent storageOk newId now { d with eventType := "document_delete" } log

/-- The batched deletion inside `cleanupOldLogs`: the Firestore query
selects up to `budget` (500 in the source) events strictly older than the
cutoff and the batch deletes exactly those; events at or after the cutoff
are always kept, as are matching events beyond the batch budget.  Returns
the deleted count and the remaining log. -/
def removeOldBatch (cutoff : Nat) : Nat → List AuditEvent → Nat × List AuditEvent
  | _, [] => (0, [])
  | 0, l => (0, l)
  | budget + 1, e :: rest =>
    if e.timestamp < cutoff then
      let r := removeOldBatch cutoff budget rest
      (r.1 + 1, r.2)
    else
      let r := removeOldBatch cutoff (budget + 1) rest
      (r.1, e :: r.2)

/-- `AuditService.cleanupOldLogs` (`auditService.js:461-489`): delete, in
one batch of at most 500, the audit events with `timestamp` strictly
before `now` minus `retentionDays`; age is the only selection criterion.
The source default for `retentionDays` is 2555 (seven years). -/
def cleanupOldLogs (now : Nat) (retentionDays : Nat) (log : List AuditEvent) :
    Nat × List AuditEvent :=
  removeOldBatch (now - retentionDays) 500 log

/-- The `POST /api/admin/cleanup-logs` route (`admin.js:419-449`): default
the retention to 2555 days, reject anything below the 365-day compliance
floor with the `INVALID_RETENTION` error before touching the ledger,
otherwise run the cleanup.  Returns the response (deleted count or error
code) together with the resulting stored log. -/
def cleanupLogsRoute (now : Nat) (retentionDays : Option Nat)
    (log : List AuditEvent) : Except String Nat × List AuditEvent :=
  let rd := retentionDays.getD 2555
  if rd < 365 then (.error "INVALID_RETENTION", log)
  else
    let r := cleanupOldLogs now rd log
    (.ok r.1, r.2)

theorem removeOldBatch_keeps_young (cutoff : Nat) (budget : Nat)
    (log : List AuditEvent) :
    ∀ e ∈ log, ¬ e.timestamp < cutoff → e ∈ (removeOldBatch cutoff budget log).2 := by
  induction log generalizing budget with
  | nil => intro e he; cases he
  | cons a rest ih =>
    intro e he hyoung
    cases budget with
    | zero => simpa [removeOldBatch] using he
    | succ b =>
      rcases List.mem_cons.mp he with rfl | hmem
      · simp only [removeOldBatch, if_neg hyoung]
        exact List.mem_cons_self _ _
      · by_cases ha : a.timestamp < cutoff
        · simpa [removeOldBatch, ha] using ih b e hmem hyoung
        · simp only [removeOldBatch, if_neg ha]
          exact List.mem_cons_of_mem a (ih (b + 1) e hmem hyoung)

theorem removeOldBatch_count_le (cutoff : Nat) (budget : Nat)
    (log : List AuditEvent) :
    (removeOldBatch cutoff budget log).1 ≤ budget := by
  induction log generalizing budget with
  | nil => simp [removeOldBatch]
  | cons a rest ih =>
    cases budget with
    | zero => simp [removeOldBatch]
    | succ b =>
      by_cases ha : a.timestamp < cutoff
      · simpa [removeOldBatch, ha, Nat.succ_le_succ_iff] using ih b
      · simpa [removeOldBatch, ha] using ih (b + 1)

/-- C6: a cleanup request below the 365-day compliance floor is rejected
with the retention-violation error (`INVALID_RETENTION`) and the stored
audit events are unchanged; an accepted cleanup keeps every event not
strictly older than `now - retentionDays` (age is the only deletion
criterion), and deletes at most one bounded batch of 500 events. -/
theorem cleanup_retention_floor (now : Nat) (rd : Nat) (log : List AuditEvent) :
    (rd < 365 → cleanupLogsRoute now (some rd) log = (.error "INVALID_RETENTION", log)) ∧
    (∀ e ∈ log, ¬ e.timestamp < now - rd →
      e ∈ (cleanupLogsRoute now (some rd) log).2) ∧
    (cleanupOldLogs now rd log).1 ≤ 500 := by
  refine ⟨?_, ?_, removeOldBatch_count_le _ _ _⟩
  · intro h
    simp [cleanupLogsRoute, h]
  · intro e he hyoung
    by_cases h : rd < 365
    · simpa [cleanupLogsRoute, h] using he
    · simpa [cleanupLogsRoute, h, cleanupOldLogs] using
        removeOldBatch_keeps_young (now - rd) 500 log e he hyoung

/-- A small concrete ledger: one event 400 days old, one 10 days old
(timestamps in days). -/
def oldEvent : AuditEvent :=
  mkAuditLog "a-old" 600 { eventType := "document_download", userId := "u1" }

def youngEvent : AuditEvent :=
  mkAuditLog "a-new" 990 { eventType := "document_upload", userId := "u2" }

/-- Witness for C6 at `now = 1000`: `cleanup(30)` is rejected and leaves
both events in place, while `cleanup(365)` keeps the young event. -/
theorem cleanup_retention_floor_witness :
    cleanupLogsRoute 1000 (some 30) [oldEvent, youngEvent] =
      (.error "INVALID_RETENTION", [oldEvent, youngEvent]) ∧
    youngEvent ∈ (cleanupLogsRoute 1000 (some 365) [oldEvent, youngEvent]).2 :=
  ⟨(cleanup_retention_floor 1000 30 [oldEvent, youngEvent]).1 (by decide),
    (cleanup_retention_floor 1000 365 [oldEvent, youngEvent]).2.1 youngEvent
      (by simp) (by decide)⟩

/-! ## Document lifecycle flows

`documentService.js`, with `storageService` (part_005) inlined at its call
sites.  The system state threads the three external stores: the Firestore
`documents` collection (`docs`, keyed by document id), the Cloud Storage
bucket (`blobs`, keyed by secure file name — since the envelope round-trip
is established above, blobs hold the recoverable plaintext bytes), and the
audit ledger (`audit`, with its availability flag `auditOk`).  `nextUuid`
models the `uuidv4` source and `now` the server timestamp.  Storage-layer
I/O faults other than a missing object are outside this model. -/

structure Sys where
  docs : List (String × DocumentMetadata)
  blobs : List (String × List Nat)
  audit : List AuditEvent
  auditOk : Bool
  nextUuid : Nat
  now : Nat
deriving Repr, DecidableEq

def freshUuid (n : Nat) : String := "uuid-" ++ toString n

/-- Append one audit event through a wrapper of `logEvent`, consuming one
uuid.  When the audit store is unavailable the ledger is left unchanged
(`logEvent` absorbs the failure). -/
def emit (w : Bool → String → Nat → EventData → List AuditEvent → LogResult)
    (d : EventData) (s : Sys) : Sys :=
  let r := w s.auditOk (freshUuid s.nextUuid) s.now d s.audit
  { s with audit := r.log, nextUuid := s.nextUuid + 1 }

def lookupDoc (docs : List (String × DocumentMetadata)) (id : String) :
    Option DocumentMetadata :=
  (docs.find? (fun p => p.1 == id)).map (fun p => p.2)

def updateDocs (key : String) (f : DocumentMetadata → DocumentMetadata)
    (docs : List (String × DocumentMetadata)) : List (String × DocumentMetadata) :=
  docs.map (fun p => if p.1 == key then (p.1, f p.2) else p)

def lookupBlob (blobs : List (String × List Nat)) (name : String) :
    Option (List Nat) :=
  (blobs.find? (fun p => p.1 == name)).map (fun p => p.2)

/-- `FieldValue.arrayUnion`: merge the new ids into the list as a set
union, keeping the existing order. -/
def arrayUnion (cur new : List String) : List String :=
  new.foldl (fun acc x => if acc.contains x then acc else acc ++ [x]) cur

/-- `DocumentService.uploadDocument` (`documentService.js:22-120`): check
the upload permission; on denial log the `access_denied` event
(`documentService.js:28-42`) and throw, whereupon the surrounding `catch`
(`documentService.js:99-118`) logs a failed `document_upload` event and
rethrows.  On success, `storageService.uploadDocument` (part_005:73-163)
draws a fresh document id and secure file name, stores the encrypted blob,
and builds the metadata row, which `uploadDocument` completes with the
counters, the empty sharing list and the timestamps before writing it to
Firestore and logging the successful upload. -/
def DocumentService.uploadDocument (fileBuffer : List Nat)
    (metadata : UploadMetadata) (userInfo : UserInfo) (s : Sys) :
    Except String String × Sys :=
  if DocumentService.canUploadDocument userInfo metadata then
    let docId := freshUuid s.nextUuid
    let fileName := "secure-" ++ freshUuid (s.nextUuid + 1)
    let doc : DocumentMetadata :=
      { originalName := metadata.originalName
        fileName := fileName
        mimeType := metadata.mimeType
        size := fileBuffer.length
        documentType := metadata.documentType
        employeeId :=
          match metadata.employeeId with
          | some e => some e
          | none => userInfo.employeeId
        ownerId := some userInfo.uid
        sharedWith := []
        isActive := true
        accessCount := 0
        lastAccessed := none
        uploadedAt := s.now
        version := 1
        deletedAt := none
        deletedBy := none }
    let s1 : Sys :=
      { s with
          nextUuid := s.nextUuid + 2
          blobs := s.blobs ++ [(fileName, fileBuffer)]
          docs := s.docs ++ [(docId, doc)] }
    let s2 := emit logDocumentUpload
      { eventType := ""
        userId := userInfo.uid
        userEmail := userInfo.email
        userRole := userInfo.role
        employeeId := userInfo.employeeId
        resourceType := some "document"
        resourceId := some docId
        resourceName := some metadata.originalName
        resourceEmployeeId := doc.employeeId
        success := some true } s1
    (.ok docId, s2)
  else
    let s1 := emit logAccessDenied
      { eventType := ""
        userId := userInfo.uid
        userEmail := userInfo.email
        userRole := userInfo.role
        employeeId := userInfo.employeeId
        resourceType := some "document"
        attemptedAction := some "upload_document"
        reason := some "insufficient_permissions"
        requiredRole := [Config.HR, Config.ADMIN] } s
    let s2 := emit logDocumentUpload
      { eventType := ""
        userId := userInfo.uid
        userEmail := userInfo.email
        userRole := userInfo.role
        employeeId := userInfo.employeeId
        resourceName := some metadata.originalName
        success := some false
        errorMessage := some "Insufficient permissions to upload document" } s1
    (.error "Insufficient permissions to upload document", s2)

/-- `DocumentService.downloadDocument` (`documentService.js:129-221`):
look up the metadata row (absent → throw, the `catch` logs a failed
download); check `canAccessDocument` (denial → `access_denied` event with
reason `access_denied`, then throw `Access denied`, and the `catch` logs a
failed `document_download` event as well); fetch and decrypt the blob
(`storageService.downloadDocument`, which throws when the object is
missing); increment the access counter and `lastAccessed`; log the
successful download; return the plaintext. -/
def DocumentService.downloadDocument (documentId : String) (userInfo : UserInfo)
    (s : Sys) : Except String (List Nat) × Sys :=
  match lookupDoc s.docs documentId with
  | none =>
    let s1 := emit logDocumentDownload
      { eventType := ""
        userId := userInfo.uid
        userEmail := userInfo.email
        userRole := userInfo.role
        employeeId := userInfo.employeeId
        resourceType := some "document"
        resourceId := some documentId
        success := some false
        errorMessage := some "Document not found" } s
    (.error "Document not found", s1)
  | some d =>
    if DocumentService.canAccessDocument userInfo d then
      match lookupBlob s.blobs d.fileName with
      | none =>
        let s1 := emit logDocumentDownload
          { eventType := ""
            userId := userInfo.uid
            userEmail := userInfo.email
            userRole := userInfo.role
            employeeId := userInfo.employeeId
            resourceType := some "document"
            resourceId := some documentId
            success := some false
            errorMessage := some "Document not found" } s
        (.error "Document not found", s1)
      | some data =>
        let upd := fun dd =>
          { dd with accessCount := dd.accessCount + 1, lastAccessed := some s.now }
        let s1 : Sys := { s with docs := updateDocs documentId upd s.docs }
        let s2 := emit logDocumentDownload
          { eventType := ""
            userId := userInfo.uid
            userEmail := userInfo.email
            userRole := userInfo.role
            employeeId := userInfo.employeeId
            resourceType := some "document"
            resourceId := some documentId
            resourceName := some d.originalName
            resourceEmployeeId := d.employeeId
            success := some true } s1
        (.ok data, s2)
    else
      let s1 := emit logAccessDenied
        { eventType := ""
          userId := userInfo.uid
          userEmail := userInfo.email
          userRole := userInfo.role
          employeeId := userInfo.employeeId
          resourceType := some "document"
          resourceId := some documentId
          resourceName := some d.originalName
          resourceEmployeeId := d.employeeId
          attemptedAction := some "download_document"
          reason := some "access_denied" } s
      let s2 := emit logDocumentDownload
        { eventType := ""
          userId := userInfo.uid
          userEmail := userInfo.email
          userRole := userInfo.role
          employeeId := userInfo.employeeId
          resourceType := some "document"
          resourceId := some documentId
          success := some false
          errorMessage := some "Access denied" } s1
      (.error "Access denied", s2)

/-- `DocumentService.deleteDocument` (`documentService.js:230-317`): look
up the row; check `canDeleteDocument` (denial → `access_denied` event then
throw, with the `catch` logging a failed `document_delete`); delete the
blob and its sidecar from storage; soft-delete the row (`isActive :=
false`, deletion timestamp and actor); log the successful delete. -/
def DocumentService.deleteDocument (documentId : String) (userInfo : UserInfo)
    (reason : Option String) (s : Sys) : Except String String × Sys :=
  match lookupDoc s.docs documentId with
  | none =>
    let s1 := emit logDocumentDelete
      { eventType := ""
        userId := userInfo.uid
        userEmail := userInfo.email
        userRole := userInfo.role
        employeeId := userInfo.employeeId
        resourceType := some "document"
        resourceId := some documentId
        success := some false
        errorMessage := some "Document not found" } s
    (.error "Document not found", s1)
  | some d =>
    if DocumentService.canDeleteDocument userInfo d then
      let s1 : Sys := { s with blobs := s.blobs.filter (fun p => p.1 != d.fileName) }
      let upd := fun dd =>
        { dd with isActive := false, deletedAt := some s.now,
                  deletedBy := some userInfo.uid }
      let s2 : Sys := { s1 with docs := updateDocs documentId upd s1.docs }
      let s3 := emit logDocumentDelete
        { eventType := ""
          userId := userInfo.uid
          userEmail := userInfo.email
          userRole := userInfo.role
          employeeId := userInfo.employeeId
          resourceType := some "document"
          resourceId := some documentId
          resourceName := some d.originalName
          resourceEmployeeId := d.employeeId
          reason := some (reason.getD "user_request")
          success := some true } s2
      (.ok documentId, s3)
    else
      let s1 := emit logAccessDenied
        { eventType := ""
          userId := userInfo.uid
          userEmail := userInfo.email
          userRole := userInfo.role
          employeeId := userInfo.employeeId
          resourceType := some "document"
          resourceId := some documentId
          resourceName := some d.originalName
          resourceEmployeeId := d.employeeId
          attemptedAction := some "delete_document"
          reason := some "insufficient_permissions"
          requiredRole := [Config.ADMIN, Config.HR] } s
      let s2 := emit logDocumentDelete
        { eventType := ""
          userId := userInfo.uid
          userEmail := userInfo.email
          userRole := userInfo.role
          employeeId := userInfo.employeeId
          resourceType := some "document"
          resourceId := some documentId
          success := some false
          errorMessage := some "Insufficient permissions to delete document" } s1
      (.error "Insufficient permissions to delete document", s2)

/-- `DocumentService.shareDocument` (`documentService.js:464-496`): look
up the row, check `canShareDocument`, merge the new ids into `sharedWith`
with `arrayUnion`.  (Its `catch` only logs to the console; no audit
event.) -/
def DocumentService.shareDocument (documentId : String) (shareWith : List String)
    (userInfo : UserInfo) (s : Sys) : Except String (List String) × Sys :=
  match lookupDoc s.docs documentId with
  | none => (.error "Document not found", s)
  | some d =>
    if DocumentService.canShareDocument userInfo d then
      let upd := fun dd => { dd with sharedWith := arrayUnion dd.sharedWith shareWith }
      (.ok shareWith, { s with docs := updateDocs documentId upd s.docs })
    else (.error "Insufficient permissions to share document", s)

structure ListFilters where
  documentType : Option String := none
  employeeId : Option String := none
  uploadedAfter : Option Nat := none
deriving Repr, DecidableEq

structure Pagination where
  limit : Option Nat := none
deriving Repr, DecidableEq

/-- `DocumentService.listDocuments` (`documentService.js:326-398`): only
active rows; employees are restricted to their own `employeeId`; optional
type, employee (non-employee callers only) and upload-date filters; order
by `uploadedAt` descending; page size capped at 100 with default 20.  The
`startAfter` cursor is not modelled. -/
def DocumentService.listDocuments (userInfo : UserInfo) (filters : ListFilters)
    (pagination : Pagination) (s : Sys) : List (String × DocumentMetadata) :=
  let q0 := s.docs.filter (fun p => p.2.isActive)
  let q1 : List (String × DocumentMetadata) :=
    if userInfo.role = some Config.EMPLOYEE then
      q0.filter (fun p => p.2.employeeId == userInfo.employeeId)
    else q0
  let q2 : List (String × DocumentMetadata) :=
    match filters.documentType with
    | some t => q1.filter (fun p => p.2.documentType == t)
    | none => q1
  let q3 : List (String × DocumentMetadata) :=
    match filters.employeeId with
    | some e =>
      if userInfo.role ≠ some Config.EMPLOYEE then
        q2.filter (fun p => p.2.employeeId == some e)
      else q2
    | none => q2
  let q4 : List (String × DocumentMetadata) :=
    match filters.uploadedAfter with
    | some t => q3.filter (fun p => t ≤ p.2.uploadedAt)
    | none => q3
  let ordered := q4.mergeSort (fun a b => b.2.uploadedAt ≤ a.2.uploadedAt)
  let limit := min (pagination.limit.getD 20) 100
  ordered.take limit

/-- A demo system state: `demoDoc` stored under id `d1` with its blob in
the bucket, an empty ledger with audit storage available. -/
def demoSys : Sys :=
  { docs := [("d1", demoDoc)]
    blobs := [("f-1.pdf", [1, 2, 3])]
    audit := []
    auditOk := true
    nextUuid := 0
    now := 200 }

/-! ## Flow-level theorems -/

theorem canUploadDocument_employee (u : UserInfo) (m : UploadMetadata)
    (h : u.role = some Config.EMPLOYEE) :
    DocumentService.canUploadDocument u m = false := by
  simp [DocumentService.canUploadDocument, hasRole, h, Config.EMPLOYEE, Config.HR,
    Config.ADMIN]

/-- C5: an employee-initiated upload is denied: the caller receives the
typed failure, exactly one `access_denied` event is appended (carrying the
reason `insufficient_permissions`, the caller's role and the required
roles), the `catch` appends one failed `document_upload` event, and no
document metadata and no blob is written. -/
theorem employee_upload_denied_audited (fileBuffer : List Nat)
    (metadata : UploadMetadata) (userInfo : UserInfo) (s : Sys)
    (hrole : userInfo.role = some Config.EMPLOYEE) (hok : s.auditOk = true) :
    (DocumentService.uploadDocument fileBuffer metadata userInfo s).1 =
      .error "Insufficient permissions to upload document" ∧
    (∃ e1 e2,
      (DocumentService.uploadDocument fileBuffer metadata userInfo s).2.audit =
        s.audit ++ [e1, e2] ∧
      e1.eventType = "access_denied" ∧
      e1.reason = some "insufficient_permissions" ∧
      e1.requiredRole = [Config.HR, Config.ADMIN] ∧
      e1.userRole = userInfo.role ∧
      e1.success = false ∧
      e2.eventType = "document_upload" ∧
      e2.success = false) ∧
    ((DocumentService.uploadDocument fileBuffer metadata userInfo s).2.audit.filter
        (fun e => e.eventType == "access_denied")).length =
      (s.audit.filter (fun e => e.eventType == "access_denied")).length + 1 ∧
    (DocumentService.uploadDocument fileBuffer metadata userInfo s).2.docs = s.docs ∧
    (DocumentService.uploadDocument fileBuffer metadata userInfo s).2.blobs = s.blobs := by
  have hdeny := canUploadDocument_employee userInfo metadata hrole
  refine ⟨?_, ?_, ?_, ?_, ?_⟩
  case refine_2 =>
    simp only [DocumentService.uploadDocument, hdeny, emit, logAccessDenied,
      logDocumentUpload, logEvent, auditCollectionSet, hok, mkAuditLog,
      Bool.false_eq_true, if_false, if_true, List.append_assoc, List.cons_append,
      List.nil_append, List.append_cancel_left_eq, List.cons.injEq, and_true]
    exact ⟨_, _, ⟨rfl, rfl⟩, rfl, rfl, rfl, rfl, rfl, rfl, rfl⟩
  all_goals
    simp [DocumentService.uploadDocument, hdeny, emit, logAccessDenied,
      logDocumentUpload, logEvent, auditCollectionSet, hok, mkAuditLog,
      List.filter_append]

/-- Witness for C5: the employee `u-e2` attempting an upload on the demo
state is rejected with the typed failure. -/
theorem employee_upload_denied_audited_witness :
    (DocumentService.uploadDocument [1, 2]
      { originalName := "a.pdf", mimeType := "application/pdf",
        documentType := "other", employeeId := some "E2", tags := [],
        description := "" } employeeE2 demoSys).1 =
      .error "Insufficient permissions to upload document" :=
  (employee_upload_denied_audited [1, 2]
    { originalName := "a.pdf", mimeType := "application/pdf",
      documentType := "other", employeeId := some "E2", tags := [],
      description := "" } employeeE2 demoSys rfl rfl).1

/-- C8 counterexample: on the demo state, the cross-employee download
attempt by `u-e2` is denied, but the appended `access_denied` event
carries reason `access_denied` — not `not_own_resource` as the claim
states (that string only occurs in the `requireEmployeeAccess` middleware,
part_002:217, which the download route does not use) — and the `catch`
block appends a failed `document_download` event, where the claim says no
download event is appended. -/
theorem cross_employee_download_counterexample :
    (DocumentService.downloadDocument "d1" employeeE2 demoSys).1 =
      .error "Access denied" ∧
    ((DocumentService.downloadDocument "d1" employeeE2 demoSys).2.audit.map
      (fun e => (e.eventType, e.reason))) =
      [("access_denied", some "access_denied"), ("document_download", none)] := by
  exact ⟨rfl, rfl⟩

/-- C8 amended: a cross-employee download attempt (employee who is not the
document's subject, owner, or in its sharing list) is denied with reason
`access_denied`; exactly one `access_denied` event is appended, plus one
failed `document_download` event from the `catch` block; no successful
download event is appended and the document rows are unchanged. -/
theorem cross_employee_download_denied (documentId : String)
    (userInfo : UserInfo) (d : DocumentMetadata) (s : Sys)
    (hdoc : lookupDoc s.docs documentId = some d)
    (hok : s.auditOk = true)
    (hrole : userInfo.role = some Config.EMPLOYEE)
    (hemp : d.employeeId ≠ userInfo.employeeId)
    (howner : d.ownerId ≠ some userInfo.uid)
    (hshared : userInfo.uid ∉ d.sharedWith) :
    (DocumentService.downloadDocument documentId userInfo s).1 =
      .error "Access denied" ∧
    (∃ e1 e2,
      (DocumentService.downloadDocument documentId userInfo s).2.audit =
        s.audit ++ [e1, e2] ∧
      e1.eventType = "access_denied" ∧
      e1.reason = some "access_denied" ∧
      e1.attemptedAction = some "download_document" ∧
      e1.success = false ∧
      e2.eventType = "document_download" ∧
      e2.success = false) ∧
    (DocumentService.downloadDocument documentId userInfo s).2.docs = s.docs := by
  have hdeny := canAccessDocument_foreign_employee userInfo d hrole hemp howner hshared
  refine ⟨?_, ?_, ?_⟩
  case refine_2 =>
    simp only [DocumentService.downloadDocument, hdoc, hdeny, emit, logAccessDenied,
      logDocumentDownload, logEvent, auditCollectionSet, hok, mkAuditLog,
      Bool.false_eq_true, if_false, if_true, List.append_assoc, List.cons_append,
      List.nil_append, List.append_cancel_left_eq, List.cons.injEq, and_true]
    exact ⟨_, _, ⟨rfl, rfl⟩, rfl, rfl, rfl, rfl, rfl, rfl⟩
  all_goals
    simp [DocumentService.downloadDocument, hdoc, hdeny, emit, logAccessDenied,
      logDocumentDownload, logEvent, auditCollectionSet, hok, mkAuditLog]

/-- Witness for the amended C8 on the demo state. -/
theorem cross_employee_download_denied_witness :
    (DocumentService.downloadDocument "d1" employeeE2 demoSys).2.docs =
      demoSys.docs :=
  (cross_employee_download_denied "d1" employeeE2 demoDoc demoSys rfl rfl rfl
    (by decide) (by decide) (by decide)).2.2

/-! ## Soft-delete terminality -/

theorem mem_listDocuments (userInfo : UserInfo) (filters : ListFilters)
    (pg : Pagination) (s : Sys) (p : String × DocumentMetadata)
    (h : p ∈ DocumentService.listDocuments userInfo filters pg s) :
    p ∈ s.docs ∧ p.2.isActive = true := by
  simp only [DocumentService.listDocuments] at h
  have h2 := List.mem_of_mem_take h
  rw [List.mem_mergeSort] at h2
  rcases filters with ⟨dt, eid, ua⟩
  by_cases hrole : userInfo.role = some Config.EMPLOYEE <;>
    cases ua <;> cases eid <;> cases dt <;>
      simp only [hrole, ne_eq, not_true_eq_false, not_false_eq_true, if_true,
        if_false, ite_true, ite_false, List.mem_filter] at h2 <;>
      tauto

theorem updateDocs_key_eq (key : String) (f : DocumentMetadata → DocumentMetadata)
    (docs : List (String × DocumentMetadata)) (d2 : DocumentMetadata)
    (h : (key, d2) ∈ updateDocs key f docs) :
    ∃ d, (key, d) ∈ docs ∧ d2 = f d := by
  unfold updateDocs at h
  obtain ⟨q, hq, heq⟩ := List.mem_map.mp h
  by_cases hk : (q.1 == key) = true
  · rw [if_pos hk] at heq
    obtain ⟨h1, h2⟩ := Prod.mk.injEq .. ▸ heq
    refine ⟨q.2, ?_, h2.symm⟩
    rw [← h1]
    simpa using hq
  · rw [if_neg hk] at heq
    exact absurd (beq_iff_eq.mpr (congrArg Prod.fst heq)) hk

theorem updateDocs_key_inactive (key : String)
    (f : DocumentMetadata → DocumentMetadata)
    (docs : List (String × DocumentMetadata))
    (hf : ∀ d, (f d).isActive = false) (d2 : DocumentMetadata)
    (h : (key, d2) ∈ updateDocs key f docs) : d2.isActive = false := by
  obtain ⟨d, _, rfl⟩ := updateDocs_key_eq key f docs d2 h
  exact hf d

theorem updateDocs_preserves_inactive (key : String)
    (f : DocumentMetadata → DocumentMetadata)
    (docs : List (String × DocumentMetadata)) (id : String)
    (hf : ∀ d, d.isActive = false → (f d).isActive = false)
    (h : ∀ d, (id, d) ∈ docs → d.isActive = false)
    (d2 : DocumentMetadata) (hd2 : (id, d2) ∈ updateDocs key f docs) :
    d2.isActive = false := by
  unfold updateDocs at hd2
  obtain ⟨q, hq, heq⟩ := List.mem_map.mp hd2
  by_cases hk : (q.1 == key) = true
  · rw [if_pos hk] at heq
    obtain ⟨h1, h2⟩ := Prod.mk.injEq .. ▸ heq
    refine h2 ▸ hf q.2 (h q.2 ?_)
    rw [← h1]
    simpa using hq
  · rw [if_neg hk] at heq
    exact h d2 (heq ▸ hq)

/-- The soft-deleted demo document and a state holding it (its blob is
gone, as `deleteDocument` removes the stored object). -/
def deletedDoc : DocumentMetadata :=
  { demoDoc with isActive := false, deletedAt := some 150, deletedBy := some "u-admin" }

def deletedSys : Sys :=
  { docs := [("d1", deletedDoc)]
    blobs := []
    audit := []
    auditOk := true
    nextUuid := 0
    now := 300 }

/-- C9 counterexample: the claim says the access decision for downloading
a soft-deleted document is deny for every principal, but
`canAccessDocument` never consults the soft-delete flag: the admin is
still allowed on the soft-deleted demo document, and the download fails
only later, at the storage layer (the blob was removed), not with
`Access denied`. -/
theorem softdeleted_download_decision_allows :
    deletedDoc.isActive = false ∧
    DocumentService.canAccessDocument adminUser deletedDoc = true ∧
    (DocumentService.downloadDocument "d1" adminUser deletedSys).1 =
      .error "Document not found" := by
  exact ⟨rfl, rfl, rfl⟩

/-- C9 amended: after a successful soft delete a document is absent from
every subsequent `listDocuments` result, for every principal, filter and
page size; and none of the record-mutating operations (`shareDocument`,
`downloadDocument`, `deleteDocument`) ever returns a soft-deleted record
to the active state.  (The download access decision, however, is not
turned into a deny by the soft delete: see the counterexample.) -/
theorem soft_delete_terminal :
    (∀ (docId : String) (actor user : UserInfo) (reason : Option String)
       (s : Sys) (filters : ListFilters) (pg : Pagination) (r : String),
      (DocumentService.deleteDocument docId actor reason s).1 = .ok r →
      docId ∉ (DocumentService.listDocuments user filters pg
        (DocumentService.deleteDocument docId actor reason s).2).map
          (fun p => p.1)) ∧
    (∀ (docId : String) (shareWith : List String) (u : UserInfo) (s : Sys)
       (id : String),
      (∀ d, (id, d) ∈ s.docs → d.isActive = false) →
      ∀ d2, (id, d2) ∈ (DocumentService.shareDocument docId shareWith u s).2.docs →
        d2.isActive = false) ∧
    (∀ (docId : String) (u : UserInfo) (s : Sys) (id : String),
      (∀ d, (id, d) ∈ s.docs → d.isActive = false) →
      ∀ d2, (id, d2) ∈ (DocumentService.downloadDocument docId u s).2.docs →
        d2.isActive = false) ∧
    (∀ (docId : String) (u : UserInfo) (reason : Option String) (s : Sys)
       (id : String),
      (∀ d, (id, d) ∈ s.docs → d.isActive = false) →
      ∀ d2, (id, d2) ∈ (DocumentService.deleteDocument docId u reason s).2.docs →
        d2.isActive = false) := by
  refine ⟨?_, ?_, ?_, ?_⟩
  · intro docId actor user reason s filters pg r hsucc hmem
    rcases hl : lookupDoc s.docs docId with _ | d
    · simp [DocumentService.deleteDocument, hl, emit] at hsucc
    by_cases hc : DocumentService.canDeleteDocument actor d = true
    case neg =>
      simp [DocumentService.deleteDocument, hl, hc, emit] at hsucc
    have hdocs : (DocumentService.deleteDocument docId actor reason s).2.docs =
        updateDocs docId
          (fun dd => { dd with
            isActive := false, deletedAt := some s.now,
            deletedBy := some actor.uid }) s.docs := by
      simp [DocumentService.deleteDocument, hl, hc, emit]
    rw [List.mem_map] at hmem
    obtain ⟨p, hp, hfst⟩ := hmem
    obtain ⟨p1, p2⟩ := p
    simp only at hfst
    subst hfst
    have hmem2 := mem_listDocuments user filters pg _ (p1, p2) hp
    rw [hdocs] at hmem2
    have hfalse := updateDocs_key_inactive p1
      (fun dd => { dd with
        isActive := false, deletedAt := some s.now,
        deletedBy := some actor.uid }) s.docs (fun d => rfl) p2 hmem2.1
    rw [show ((p1, p2) : String × DocumentMetadata).2 = p2 from rfl] at hmem2
    rw [hmem2.2] at hfalse
    cases hfalse
  · intro docId shareWith u s id h d2 hd2
    rcases hl : lookupDoc s.docs docId with _ | d
    · simp only [DocumentService.shareDocument, hl] at hd2
      exact h d2 hd2
    by_cases hc : DocumentService.canShareDocument u d = true
    · simp only [DocumentService.shareDocument, hl, hc, if_true] at hd2
      exact updateDocs_preserves_inactive docId
        (fun dd => { dd with sharedWith := arrayUnion dd.sharedWith shareWith })
        s.docs id (fun dd hdd => hdd) h d2 hd2
    · simp only [DocumentService.shareDocument, hl, hc, if_false,
        Bool.false_eq_true] at hd2
      exact h d2 hd2
  · intro docId u s id h d2 hd2
    rcases hl : lookupDoc s.docs docId with _ | d
    · simp only [DocumentService.downloadDocument, hl, emit] at hd2
      exact h d2 hd2
    by_cases hc : DocumentService.canAccessDocument u d = true
    · rcases hb : lookupBlob s.blobs d.fileName with _ | data
      · simp only [DocumentService.downloadDocument, hl, hc, hb, if_true, emit] at hd2
        exact h d2 hd2
      · simp only [DocumentService.downloadDocument, hl, hc, hb, if_true, emit] at hd2
        exact updateDocs_preserves_inactive docId
          (fun dd => { dd with accessCount := dd.accessCount + 1, lastAccessed := some s.now })
          s.docs id (fun dd hdd => hdd) h d2 hd2
    · simp only [DocumentService.downloadDocument, hl, hc, if_false,
        Bool.false_eq_true, emit] at hd2
      exact h d2 hd2
  · intro docId u reason s id h d2 hd2
    rcases hl : lookupDoc s.docs docId with _ | d
    · simp only [DocumentService.deleteDocument, hl, emit] at hd2
      exact h d2 hd2
    by_cases hc : DocumentService.canDeleteDocument u d = true
    · simp only [DocumentService.deleteDocument, hl, hc, if_true, emit] at hd2
      exact updateDocs_preserves_inactive docId
        (fun dd => { dd with
          isActive := false, deletedAt := some s.now, deletedBy := some u.uid })
        s.docs id (fun dd _ => rfl) h d2 hd2
    · simp only [DocumentService.deleteDocument, hl, hc, if_false,
        Bool.false_eq_true, emit] at hd2
      exact h d2 hd2

/-- Witness for the amended C9: after the admin soft-deletes `d1` on the
demo state, `d1` no longer appears in the hr principal's listing. -/
theorem soft_delete_terminal_witness :
    (DocumentService.deleteDocument "d1" adminUser none demoSys).1 = .ok "d1" ∧
    "d1" ∉ (DocumentService.listDocuments hrUser {} {}
      (DocumentService.deleteDocument "d1" adminUser none demoSys).2).map
        (fun p => p.1) :=
  ⟨rfl, soft_delete_terminal.1 "d1" adminUser hrUser none demoSys {} {} "d1" rfl⟩

end SecureLocker
